import Mathlib

/-!
Verification development for the sdbatch batch image-generation engine
(src/src/batch.rs).  The Rust source is shallowly embedded: pure helpers
become Lean functions, the effectful orchestration (run / resume / reroll)
is modelled as state-free functions that additionally return an explicit
trace of side effects (directory creation, log writes, collaborator calls,
image-file writes).  Randomness is threaded explicitly: every random draw
the Rust code takes from its thread-local generator is a parameter here.
Floating-point chances are embedded as rationals; none of the verified
properties depend on rounding.  The external image-generation service is
modelled as an oracle assigning to each item index a response (number of
returned images plus the authoritative seed list); the claims under study
concern only successful responses.
-/

namespace SDBatch

/- ---------------------------------------------------------------- -/
/- Data model (structs and enums of src/src/batch.rs)               -/
/- ---------------------------------------------------------------- -/

/-- Embeds `HiResSettings` (batch.rs). -/
structure HiResSettings where
  upscaler : String
  upscale_by : ℚ
  denoising_strength : ℚ
  steps : Nat
deriving DecidableEq

/-- Embeds `PostProcesses` (batch.rs). -/
inductive PostProcesses where
  | Resize (scale_by : ℚ)
deriving DecidableEq

/-- Embeds `PromptData` (batch.rs): the per-image generation parameters. -/
structure PromptData where
  positive : String
  negative : String
  model : String
  sampler : String
  steps : Nat
  width : Nat
  height : Nat
  cfg : ℚ
  clip_skip : Option Nat
  seed : Option Int
  hires : Option HiResSettings
  post_process : Option PostProcesses
deriving DecidableEq

/-- Embeds `WeightedPrompt` (batch.rs). -/
structure WeightedPrompt where
  prompt : String
  chance : Option ℚ
deriving DecidableEq

/-- Embeds `Prompts` (batch.rs): the three prompt-pool entry shapes. -/
inductive Prompts where
  | Single (positive : String)
  | Multiple (positives : List String)
  | MultipleWeighted (positives : List WeightedPrompt)
deriving DecidableEq

/-- Embeds `OneToManyPrompts` (batch.rs). -/
inductive OneToManyPrompts where
  | One (keyword : String)
  | Many (keywords : List String)
deriving DecidableEq

/-- Embeds `PromptModifer` (batch.rs). -/
structure PromptModifer where
  prompt : String
  chance : Option ℚ
  if_activator : Option String
  if_not_activator : Option OneToManyPrompts
deriving DecidableEq

/-- Embeds `BatchTemplate` (batch.rs). -/
structure BatchTemplate where
  name : String
  description : Option String
  api_url : Option String
  base_prompt : PromptData
  count : Option Nat
  save_images : Option Bool
  restore_faces : Option Bool
  prompts : List Prompts
  modifiers : Option (List PromptModifer)

/-- Embeds `BatchError` (batch.rs). -/
structure BatchError where
  message : String
deriving DecidableEq

/-- Embeds `BatchLog` (batch.rs): template name, ordered per-image
records, and the stable file path bound at creation time. -/
structure BatchLog where
  template : String
  images : List PromptData
  file_path : String
deriving DecidableEq

/- ---------------------------------------------------------------- -/
/- String helpers mirroring the Rust standard library pieces used    -/
/- ---------------------------------------------------------------- -/

/-- Rust `char::is_whitespace`: the Unicode White_Space property. -/
def rustIsWhitespace (c : Char) : Bool :=
  c = '\x09' || c = '\x0a' || c = '\x0b' || c = '\x0c' || c = '\x0d' ||
  c = ' ' || c = '\u0085' || c = '\u00A0' || c = '\u1680' ||
  c = '\u2000' || c = '\u2001' || c = '\u2002' || c = '\u2003' ||
  c = '\u2004' || c = '\u2005' || c = '\u2006' || c = '\u2007' ||
  c = '\u2008' || c = '\u2009' || c = '\u200A' || c = '\u2028' ||
  c = '\u2029' || c = '\u202F' || c = '\u205F' || c = '\u3000'

/-- Rust `str::trim_end`: drop trailing whitespace characters. -/
def trimEnd (s : String) : String :=
  ⟨(s.data.reverse.dropWhile rustIsWhitespace).reverse⟩

/-- Rust `str::contains(&str)`: substring occurrence test. -/
def strContains (hay needle : String) : Bool :=
  hay.data.tails.any fun t => needle.data.isPrefixOf t

/-- Embeds `BatchTemplate::combine_prompts` (batch.rs): trim trailing
whitespace from `a`, append a comma unless the last character already is
one, then a space, then `b`. -/
def combine_prompts (a b : String) : String :=
  let combined := trimEnd a
  let combined :=
    if combined.data.getLast? = some ',' then combined else combined.push ','
  (combined.push ' ') ++ b

/-- Embeds `BatchTemplate::build_positive` (batch.rs). -/
def build_positive (t : BatchTemplate) (positive : String) : String :=
  combine_prompts t.base_prompt.positive positive

/-- Embeds `BatchTemplate::copy_with_positive` (batch.rs). -/
def copy_with_positive (t : BatchTemplate) (positive : String) : PromptData :=
  { t.base_prompt with positive := build_positive t positive }

/- ---------------------------------------------------------------- -/
/- Randomized selection                                              -/
/- ---------------------------------------------------------------- -/

/-- Rust `SliceRandom::choose`: `none` on an empty slice, otherwise the
element at a uniformly drawn index; the draw is supplied explicitly. -/
def chooseList {α : Type} (l : List α) (i : Nat) : Option α :=
  if l.isEmpty then none else l.get? (i % l.length)

/-- Embeds `impl Probable for WeightedPrompt` (batch.rs):
the declared chance, defaulting to 1.0 when unspecified. -/
def probability (w : WeightedPrompt) : ℚ :=
  w.chance.getD 1

/-- Helper for `cumChoose`: walk the entries in declared order keeping the
cumulative probability mass, returning the first entry whose cumulative
sum strictly exceeds the draw. -/
def cumChooseAux (r : ℚ) (acc : ℚ) : List WeightedPrompt → Option WeightedPrompt
  | [] => none
  | w :: ws =>
    if r < acc + probability w then some w else cumChooseAux r (acc + probability w) ws

/-- Modelled from the spec: the `choose_rand` crate's `choose_rand` used by
`BatchTemplate::generate_log_for_prompt` for `Prompts::MultipleWeighted` is
an external dependency whose source is not part of this repository.  The
spec describes it as a cumulative-distribution draw over the declared
weights, in declared order, using a single uniform draw in [0,1); `none`
models the crate's error (surfaced as a panic through `.expect`), reached
when the draw is not covered by the cumulative mass. -/
def cumChoose (l : List WeightedPrompt) (r : ℚ) : Option WeightedPrompt :=
  cumChooseAux r 0 l

/-- Cumulative mass of the first `i` declared weights. -/
def prefixWeight (l : List WeightedPrompt) (i : Nat) : ℚ :=
  ((l.take i).map probability).sum

/- ---------------------------------------------------------------- -/
/- Modifier filtering and application                                -/
/- ---------------------------------------------------------------- -/

/-- Embeds `filter_if_not` (batch.rs): true when none of the negative
activator fragments occurs in the resolved positive prompt. -/
def filter_if_not (prompt : PromptData) (activator : OneToManyPrompts) : Bool :=
  match activator with
  | OneToManyPrompts.One not_keyword => !(strContains prompt.positive not_keyword)
  | OneToManyPrompts.Many not_keywords =>
    !(not_keywords.any fun keyword => strContains prompt.positive keyword)

/-- The two `.filter` passes of `BatchTemplate::generate_log_for_prompt`
(batch.rs) that narrow the modifier pool to the applicable candidates. -/
def applicableModifiers (pd : PromptData) (modifiers : List PromptModifer) :
    List PromptModifer :=
  (modifiers.filter fun m =>
      m.if_activator.isNone ||
        (match m.if_activator with
         | some activator => strContains pd.positive activator
         | none => false)).filter fun m =>
    m.if_not_activator.isNone ||
      (match m.if_not_activator with
       | some activator => filter_if_not pd activator
       | none => false)

/-- The modifier-application block of `BatchTemplate::generate_log_for_prompt`
(batch.rs): pick one applicable modifier uniformly (`choice` is the drawn
index), roll once, and append its fragment when the roll is within the
modifier's chance. -/
def applyModifiers (pd : PromptData) (mods : Option (List PromptModifer))
    (choice : Nat) (roll : ℚ) : PromptData :=
  match mods with
  | none => pd
  | some modifiers =>
    match chooseList (applicableModifiers pd modifiers) choice with
    | none => pd
    | some m =>
      if roll ≤ m.chance.getD 1 then
        { pd with positive := combine_prompts pd.positive m.prompt }
      else pd

/-- The random draws consumed by one `generate_log_for_prompt` call. -/
structure RandSrc where
  promptChoice : Nat
  weightedDraw : ℚ
  modChoice : Nat
  modRoll : ℚ
  seedDraw : Nat

/-- Embeds `BatchTemplate::generate_log_for_prompt` (batch.rs).  An
`Except.error` models the source's panics (`.expect`), reached only on an
empty `Multiple` list or an uncovered weighted draw. -/
def generate_log_for_prompt (t : BatchTemplate) (p : Prompts) (rnd : RandSrc) :
    Except String PromptData :=
  (match p with
    | Prompts.Single positive => Except.ok (copy_with_positive t positive)
    | Prompts.Multiple positive_vec =>
      match chooseList positive_vec rnd.promptChoice with
      | some positive => Except.ok (copy_with_positive t positive)
      | none => Except.error "Prompts::Multiple to always pick Some positive prompt"
    | Prompts.MultipleWeighted positive_vec =>
      match cumChoose positive_vec rnd.weightedDraw with
      | some selected => Except.ok (copy_with_positive t selected.prompt)
      | none => Except.error "chances to sum to 1.0"
  ).map fun pd =>
    let pd := applyModifiers pd t.modifiers rnd.modChoice rnd.modRoll
    { pd with seed := some ((rnd.seedDraw % 4294967296 : Nat) : Int) }

/- ---------------------------------------------------------------- -/
/- The generation collaborator and the effect trace                  -/
/- ---------------------------------------------------------------- -/

/-- A successful collaborator response: how many image buffers came back
and the `all_seeds` list of the parsed `Txt2ImgInfo` (batch.rs). -/
structure ApiResponse where
  images : Nat
  all_seeds : List Int

/-- Observable side effects of the orchestration code, in order. -/
inductive Effect where
  | createDir (path : String)
  | writeLog (path : String) (log : BatchLog)
  | apiCreate
  | apiCall (index : Nat) (prompt : PromptData)
  | writeImage (name : String)
deriving DecidableEq

/-- Rust `format!("{:02}", n)`: decimal, zero-padded to width two. -/
def pad2 (n : Nat) : String :=
  if n < 10 then "0" ++ toString n else toString n

/-- The image file name `BatchTemplate::generate_image` (batch.rs) uses for
the buffer at position `i` of the response for item `idx`:
`format!("{:02}.png", idx)` for the primary buffer (`i = 0`) and
`format!("{:02}-{}.png", idx, i)` for the others. -/
def imageFilename (idx i : Nat) : String :=
  if i = 0 then pad2 idx ++ ".png" else pad2 idx ++ "-" ++ toString i ++ ".png"

/-- Embeds `BatchTemplate::generate_image` (batch.rs): one collaborator
call; writes one file per returned buffer; on the primary buffer the
item's seed is overwritten with the head of the response's `all_seeds`.
The image bytes and the post-process pipeline do not affect file names or
the seed and are not tracked. -/
def generate_image (resp : ApiResponse) (prompt : PromptData) (prompt_index : Nat) :
    PromptData × List Effect :=
  let prompt' :=
    if 0 < resp.images then
      match resp.all_seeds.head? with
      | some seed => { prompt with seed := some seed }
      | none => prompt
    else prompt
  (prompt',
    Effect.apiCall prompt_index prompt ::
      (List.range resp.images).map fun i => Effect.writeImage (imageFilename prompt_index i))

/- ---------------------------------------------------------------- -/
/- Log naming and the run orchestrator                               -/
/- ---------------------------------------------------------------- -/

/-- Embeds `get_safe_filename` (batch.rs): spaces become dashes. -/
def get_safe_filename (name : String) : String :=
  ⟨name.data.map fun c => if c = ' ' then '-' else c⟩

/-- Embeds `BatchLog::safe_logfile_name` (batch.rs); the timestamp string
(`%Y-%m-%d-%H%M` of the wall clock) is a parameter. -/
def safe_logfile_name (name ts : String) : String :=
  get_safe_filename name ++ "-" ++ ts ++ ".json"

/-- The stable log file path fixed by `BatchLog::new` (batch.rs);
path concatenation is modelled with a `/` separator. -/
def logPath (output_dir name ts : String) : String :=
  output_dir ++ "/" ++ safe_logfile_name name ts

/-- Embeds `BatchLog::new` (batch.rs). -/
def BatchLog.new (name output_dir ts : String) : BatchLog :=
  { template := name, images := [], file_path := logPath output_dir name ts }

/-- The randomness consumed by one `BatchTemplate::run`: the oracle for
`SliceRandom::choose_multiple` and one `RandSrc` per planned item. -/
structure RunRand where
  chooseMultiple : List Prompts → Nat → List Prompts
  itemRand : Nat → RandSrc

/-- The pool-sampling branch of `BatchTemplate::run` (batch.rs, lines
138-144): a deterministic prefix when sequential, otherwise the
`choose_multiple` draw of the randomness source. -/
def samplePool (prompts : List Prompts) (count : Nat) (sequential : Bool)
    (rnd : RunRand) : List Prompts :=
  if sequential then prompts.take count else rnd.chooseMultiple prompts count

/-- The log-building loop of `BatchTemplate::run` (batch.rs, lines
149-152): one planned record per sampled pool entry. -/
def buildImages (t : BatchTemplate) (pool : List Prompts) (rnd : RunRand) :
    Except String (List PromptData) :=
  pool.enum.mapM fun ip => generate_log_for_prompt t ip.2 (rnd.itemRand ip.1)

/-- The generation loop of `BatchTemplate::run` (batch.rs, lines 166-169):
items are regenerated in plan order, each updated in place from its
collaborator response; no log write happens here. -/
def runGenLoop (api : Nat → ApiResponse) : Nat → List PromptData → List PromptData × List Effect
  | _, [] => ([], [])
  | i, p :: rest =>
    let pe := generate_image (api i) p i
    let r := runGenLoop api (i + 1) rest
    (pe.1 :: r.1, pe.2 ++ r.2)

/-- Outcome of `BatchTemplate::run`: success, a returned error, or a
panic of the source (modelled, never reached on well-formed input). -/
inductive RunOutcome where
  | ok (log : BatchLog)
  | err (e : BatchError)
  | panicked (msg : String)
deriving DecidableEq

/-- The validation error message of `BatchTemplate::run` (batch.rs). -/
def countOverflowMsg : String :=
  "count is too large, it must be less than or equal to the number of prompts"

/-- Embeds `BatchTemplate::run` (batch.rs): validate the count, sample the
pool, build and persist the planned log, then (unless dry-run) create the
API client and generate every item in order.  The returned trace lists the
side effects in program order. -/
def BatchTemplate.run (t : BatchTemplate) (dry_run : Bool) (output_dir : String)
    (sequential : Bool) (rnd : RunRand) (ts : String) (api : Nat → ApiResponse) :
    RunOutcome × List Effect :=
  let count := t.count.getD t.prompts.length
  if t.prompts.length < count then
    (RunOutcome.err ⟨countOverflowMsg⟩, [])
  else
    let prompt_pool := samplePool t.prompts count sequential rnd
    match buildImages t prompt_pool rnd with
    | Except.error msg => (RunOutcome.panicked msg, [Effect.createDir output_dir])
    | Except.ok images =>
      let batch_log : BatchLog :=
        { BatchLog.new t.name output_dir ts with images := images }
      let preTrace :=
        [Effect.createDir output_dir, Effect.writeLog batch_log.file_path batch_log]
      if dry_run then (RunOutcome.ok batch_log, preTrace)
      else
        let gen := runGenLoop api 0 images
        let batch_log := { batch_log with images := gen.1 }
        (RunOutcome.ok batch_log, preTrace ++ [Effect.apiCreate] ++ gen.2)

/-- Embeds `TemplateRunResults` (batch.rs). -/
structure TemplateRunResults where
  images_created : Nat
  log_file : String
deriving DecidableEq

/-- Outcome of `do_run`. -/
inductive DoRunOutcome where
  | ok (results : TemplateRunResults)
  | err (e : BatchError)
  | panicked (msg : String)
deriving DecidableEq

/-- Embeds `do_run` (batch.rs); reading and deserializing the template
file is outside the model, so the parsed template is the input. -/
def do_run (dry_run sequential : Bool) (t : BatchTemplate) (output_dir : String)
    (rnd : RunRand) (ts : String) (api : Nat → ApiResponse) :
    DoRunOutcome × List Effect :=
  match t.run dry_run output_dir sequential rnd ts api with
  | (RunOutcome.ok log, tr) =>
    (DoRunOutcome.ok ⟨log.images.length, log.file_path⟩, tr)
  | (RunOutcome.err e, tr) => (DoRunOutcome.err e, tr)
  | (RunOutcome.panicked m, tr) => (DoRunOutcome.panicked m, tr)

/- ---------------------------------------------------------------- -/
/- Reroll                                                            -/
/- ---------------------------------------------------------------- -/

/-- The reroll out-of-bounds message of `reroll` (batch.rs). -/
def rerollMsg (index : Nat) : String :=
  "Reroll error: Log file contains less than " ++ toString (index + 1) ++ " images"

/-- Embeds `reroll` (batch.rs): look up the indexed entry; when absent,
fail before any side effect; otherwise clear the seed, regenerate through
`generate_image`, and overwrite the log file in place. -/
def reroll (log : BatchLog) (index : Nat) (api : ApiResponse) :
    Except BatchError Unit × List Effect :=
  match log.images.get? index with
  | none => (Except.error ⟨rerollMsg index⟩, [])
  | some prompt =>
    let updated_prompt := { prompt with seed := none }
    let gen := generate_image api updated_prompt index
    let log' := { log with images := log.images.set index gen.1 }
    (Except.ok (), Effect.apiCreate :: gen.2 ++ [Effect.writeLog log.file_path log'])

/- ---------------------------------------------------------------- -/
/- Resume                                                            -/
/- ---------------------------------------------------------------- -/

/-- Position of the last `.` of a file name, if any. -/
def lastDotIdx (cs : List Char) : Option Nat :=
  ((List.range cs.length).filter fun i => cs.get? i = some '.').getLast?

/-- Rust `Path::extension` on a bare file name: the part after the last
dot, absent when there is no dot or the only dot leads the name. -/
def fileExtension (fname : String) : Option String :=
  match lastDotIdx fname.data with
  | none => none
  | some 0 => none
  | some i => some ⟨fname.data.drop (i + 1)⟩

/-- Rust `Path::file_stem` on a bare file name. -/
def fileStem (fname : String) : Option String :=
  if fname.data.isEmpty then none
  else
    match lastDotIdx fname.data with
    | none => some fname
    | some 0 => some fname
    | some i => some ⟨fname.data.take i⟩

/-- Rust `usize::from_str_radix(s, 10)` restricted to inputs that fit:
an optional leading `+` followed by at least one decimal digit. -/
def rustParseUsize (s : String) : Option Nat :=
  let cs :=
    match s.data with
    | '+' :: rest => rest
    | cs => cs
  if cs.isEmpty then none
  else if cs.all Char.isDigit then
    some (cs.foldl (fun acc c => acc * 10 + (c.toNat - '0'.toNat)) 0)
  else none

/-- The directory-scan body of `resume` (batch.rs, lines 547-566): a file
marks an index as present exactly when its extension is `png` and its
whole stem parses as a decimal number. -/
def parseExistingIndex (fname : String) : Option Nat :=
  match fileExtension fname with
  | none => none
  | some ext =>
    if ext ≠ "png" then none
    else
      match fileStem fname with
      | none => none
      | some stem => rustParseUsize stem

/-- The collected `existing_image_indices` of `resume` (batch.rs).  The
source sorts the directory entries first, which only permutes this list;
the loop below consults it through membership only. -/
def existingImageIndices (dirEntries : List String) : List Nat :=
  dirEntries.filterMap parseExistingIndex

/-- The per-entry loop of `resume` (batch.rs, lines 568-584), carried out
from item `index` on: present entries are kept, missing ones are
regenerated with a cleared seed; returns the regeneration count, the
updated records, and the trace. -/
def resumeItems (existing : List Nat) (api : Nat → ApiResponse) :
    Nat → List PromptData → Nat × List PromptData × List Effect
  | _, [] => (0, [], [])
  | index, prompt :: rest =>
    if existing.contains index then
      let r := resumeItems existing api (index + 1) rest
      (r.1, prompt :: r.2.1, r.2.2)
    else
      let gen := generate_image (api index) { prompt with seed := none } index
      let r := resumeItems existing api (index + 1) rest
      (r.1 + 1, gen.1 :: r.2.1, gen.2 ++ r.2.2)

/-- Embeds `resume` (batch.rs): scan the log's directory (passed as its
file-name listing), regenerate every entry whose index is not marked
present, and persist the updated log once at the end. -/
def resume (log : BatchLog) (dirEntries : List String) (api : Nat → ApiResponse) :
    Nat × BatchLog × List Effect :=
  let existing := existingImageIndices dirEntries
  let r := resumeItems existing api 0 log.images
  let log' := { log with images := r.2.1 }
  (r.1, log', Effect.apiCreate :: r.2.2 ++ [Effect.writeLog log.file_path log'])

/- ---------------------------------------------------------------- -/
/- Trace observations and spec-side comparison definitions           -/
/- ---------------------------------------------------------------- -/

/-- Project a log write out of an effect. -/
def getWriteLog : Effect → Option BatchLog
  | Effect.writeLog _ l => some l
  | _ => none

/-- The logs persisted along a trace, in order. -/
def logWrites (tr : List Effect) : List BatchLog :=
  tr.filterMap getWriteLog

/-- The log content on disk after a trace: the last write, if any. -/
def lastWrittenLog (tr : List Effect) : Option BatchLog :=
  (logWrites tr).getLast?

/-- Project a collaborator call out of an effect. -/
def getApiCall : Effect → Option (Nat × PromptData)
  | Effect.apiCall i p => some (i, p)
  | _ => none

/-- The collaborator calls of a trace, in order. -/
def apiCalls (tr : List Effect) : List (Nat × PromptData) :=
  tr.filterMap getApiCall

/-- The seed column of a successful run outcome. -/
def outcomeSeeds : RunOutcome → List (Option Int)
  | RunOutcome.ok log => log.images.map fun p => p.seed
  | _ => []

/-- The seed an item record holds after `generate_image` consumed the
given response, starting from `old`. -/
def seedAfter (resp : ApiResponse) (old : Option Int) : Option Int :=
  if 0 < resp.images then
    match resp.all_seeds.head? with
    | some s => some s
    | none => old
  else old

/-- Spec-side rendering of the claims' `<outputDir>/<index>.png` primary
file name, with the index in plain decimal. -/
def specPrimaryName (index : Nat) : String :=
  toString index ++ ".png"

/-- Spec-side matcher for the claims' `<index>[-<subindex>].<ext>` naming
convention, defined from the claim's words for comparison with the
source's directory scan: the stem is the plain decimal index optionally
followed by a dash and a decimal subindex, and any extension counts. -/
def specConventionMatches (index : Nat) (fname : String) : Bool :=
  match lastDotIdx fname.data with
  | none => false
  | some i =>
    let stem : List Char := fname.data.take i
    decide (0 < (fname.data.drop (i + 1)).length) &&
      (stem = (toString index).data ||
        (((toString index).data ++ ['-']).isPrefixOf stem &&
          (let sub := stem.drop ((toString index).data.length + 1)
           !sub.isEmpty && sub.all Char.isDigit)))

/-- Spec-side description of `combine` from claim C5, assembled exactly as
its sentence reads: trimmed base, a comma unless the trimmed base already
ends with one, a single space, then the fragment. -/
def combineSpec (a b : String) : String :=
  trimEnd a ++ (if (trimEnd a).data.getLast? = some ',' then "" else ",") ++ " " ++ b

/- ---------------------------------------------------------------- -/
/- Concrete inputs reused by witnesses and counterexamples           -/
/- ---------------------------------------------------------------- -/

/-- A plain base parameter record. -/
def pdBase : PromptData :=
  { positive := "base", negative := "", model := "m", sampler := "s",
    steps := 20, width := 512, height := 512, cfg := 7, clip_skip := none,
    seed := none, hires := none, post_process := none }

/-- A one-prompt template without modifiers. -/
def tOne : BatchTemplate :=
  { name := "t", description := none, api_url := none, base_prompt := pdBase,
    count := none, save_images := none, restore_faces := none,
    prompts := [Prompts.Single "solo"], modifiers := none }

/-- `tOne` with a requested count exceeding its one-prompt pool. -/
def tOver : BatchTemplate := { tOne with count := some 2 }

/-- A fixed randomness source: planning seed draw 7. -/
def rnd7 : RunRand :=
  { chooseMultiple := fun l _ => l, itemRand := fun _ => ⟨0, 0, 0, 0, 7⟩ }

/-- A second, different randomness source. -/
def rnd9 : RunRand :=
  { chooseMultiple := fun _ _ => [], itemRand := fun _ => ⟨1, 0, 2, 0, 9⟩ }

/-- A collaborator oracle: every call returns one image with seed 42. -/
def api42 : Nat → ApiResponse := fun _ => ⟨1, [42]⟩

/-- A three-entry log bound to a stable path. -/
def log3 : BatchLog := ⟨"t", [pdBase, pdBase, pdBase], "out/t.json"⟩

/-- A three-entry sequential prompt pool. -/
def ps3 : List Prompts := [Prompts.Single "a", Prompts.Single "b", Prompts.Single "c"]

/- ---------------------------------------------------------------- -/
/- String scaffolding lemmas                                         -/
/- ---------------------------------------------------------------- -/

theorem string_data_ext {s t : String} (h : s.data = t.data) : s = t := by
  cases s; cases t; cases h; rfl

theorem string_data_append (s t : String) : (s ++ t).data = s.data ++ t.data := by
  cases s; cases t; rfl

theorem string_data_push (s : String) (c : Char) : (s.push c).data = s.data ++ [c] := by
  cases s; rfl

/- ---------------------------------------------------------------- -/
/- Claim C5                                                          -/
/- ---------------------------------------------------------------- -/

/-- Claim C5: for all strings `a` and `b`, `combine_prompts a b` is `a`
with trailing whitespace removed, followed by a comma unless the trimmed
`a` already ends with one, then a single space, then `b`; in particular
the three example equations of the claim hold. -/
theorem combine_prompts_matches_spec :
    (∀ a b : String, combine_prompts a b = combineSpec a b) ∧
    combine_prompts "a, b" "c" = "a, b, c" ∧
    combine_prompts "a, b " "c" = "a, b, c" ∧
    combine_prompts "a, b," "c" = "a, b, c" := by
  refine ⟨fun a b => ?_, by decide, by decide, by decide⟩
  unfold combine_prompts combineSpec
  by_cases h : (trimEnd a).data.getLast? = some ','
  · simp only [h, if_pos]
    apply string_data_ext
    simp [string_data_append, string_data_push]
  · simp only [h, if_neg]
    apply string_data_ext
    simp [string_data_append, string_data_push]

/- ---------------------------------------------------------------- -/
/- Claim C4                                                          -/
/- ---------------------------------------------------------------- -/

/-- Claim C4: whenever the requested count exceeds the prompt pool size,
`run` fails with the count-overflow error and produces no side effect at
all — the trace is empty, so no directory, no log file, no client and no
generation call. -/
theorem run_count_overflow_no_side_effects (t : BatchTemplate) (c : Nat)
    (dry sequential : Bool) (output_dir ts : String) (rnd : RunRand)
    (api : Nat → ApiResponse) (hc : t.count = some c) (hlt : t.prompts.length < c) :
    t.run dry output_dir sequential rnd ts api = (RunOutcome.err ⟨countOverflowMsg⟩, []) := by
  unfold BatchTemplate.run
  rw [hc]
  simp [hlt]

/-- Witness for C4 at a concrete overflowing template. -/
theorem run_count_overflow_no_side_effects_witness :
    tOver.run false "out" true rnd7 "ts" api42 = (RunOutcome.err ⟨countOverflowMsg⟩, []) :=
  run_count_overflow_no_side_effects tOver 2 false true "out" "ts" rnd7 api42 rfl (by decide)

/- ---------------------------------------------------------------- -/
/- Claim C3                                                          -/
/- ---------------------------------------------------------------- -/

/-- Claim C3: `reroll` with an index at or beyond the number of logged
images fails with the invalid-index error and performs no side effect:
the empty trace means the log file is untouched and no client or
generation call is made. -/
theorem reroll_out_of_bounds_no_mutation (log : BatchLog) (index : Nat)
    (api : ApiResponse) (h : log.images.length ≤ index) :
    reroll log index api = (Except.error ⟨rerollMsg index⟩, []) := by
  unfold reroll
  rw [List.get?_eq_none.mpr h]

/-- Witness for C3: rerolling index 5 of a three-image log. -/
theorem reroll_out_of_bounds_no_mutation_witness :
    reroll log3 5 ⟨1, [42]⟩ = (Except.error ⟨rerollMsg 5⟩, []) :=
  reroll_out_of_bounds_no_mutation log3 5 ⟨1, [42]⟩ (by decide)

/- ---------------------------------------------------------------- -/
/- Claim C8                                                          -/
/- ---------------------------------------------------------------- -/

/-- Claim C8: with `sequential = true` and a valid count `k`, sampling
yields exactly the first `k` pool entries in declared order, independent
of the randomness source. -/
theorem sequential_sampling_first_k (prompts : List Prompts) (k : Nat)
    (rnd rnd' : RunRand) (hk : k ≤ prompts.length) :
    samplePool prompts k true rnd = samplePool prompts k true rnd' ∧
    (samplePool prompts k true rnd).length = k ∧
    ∀ i : Nat, (samplePool prompts k true rnd).get? i =
      if i < k then prompts.get? i else none := by
  refine ⟨rfl, ?_, ?_⟩
  · simp [samplePool, Nat.min_eq_left hk]
  · intro i
    by_cases hi : i < k
    · rw [if_pos hi]
      simp only [samplePool, if_pos]
      rw [List.get?_eq_getElem?, List.get?_eq_getElem?, List.getElem?_take_of_lt hi]
    · rw [if_neg hi]
      apply List.get?_eq_none.mpr
      simp only [samplePool, if_pos, List.length_take]
      exact le_trans (Nat.min_le_left _ _) (Nat.not_lt.mp hi)

/-- Witness for C8 over a three-entry pool with two distinct randomness
sources. -/
theorem sequential_sampling_first_k_witness :
    samplePool ps3 2 true rnd7 = samplePool ps3 2 true rnd9 ∧
    (samplePool ps3 2 true rnd7).length = 2 :=
  ⟨(sequential_sampling_first_k ps3 2 rnd7 rnd9 (by decide)).1,
   (sequential_sampling_first_k ps3 2 rnd7 rnd9 (by decide)).2.1⟩

/- ---------------------------------------------------------------- -/
/- Claim C6                                                          -/
/- ---------------------------------------------------------------- -/

theorem chooseList_mem {α : Type} {l : List α} {i : Nat} {x : α}
    (h : chooseList l i = some x) : x ∈ l := by
  unfold chooseList at h
  split at h
  · exact absurd h (by simp)
  · exact List.get?_mem h

theorem mem_applicableModifiers {pd : PromptData} {ms : List PromptModifer}
    {m : PromptModifer} (h : m ∈ applicableModifiers pd ms) :
    m ∈ ms ∧ (m.if_activator.all fun a => strContains pd.positive a) = true ∧
      (m.if_not_activator.all fun na => filter_if_not pd na) = true := by
  unfold applicableModifiers at h
  rw [List.mem_filter] at h
  obtain ⟨h1, hnot⟩ := h
  rw [List.mem_filter] at h1
  obtain ⟨hmem, hif⟩ := h1
  refine ⟨hmem, ?_, ?_⟩
  · cases ha : m.if_activator with
    | none => rfl
    | some a => rw [ha] at hif; simpa [Option.all] using hif
  · cases ha : m.if_not_activator with
    | none => rfl
    | some a => rw [ha] at hnot; simpa [Option.all] using hnot

/-- Claim C6: modifier application either leaves the record unchanged, or
appends exactly one fragment, and that fragment belongs to a pool modifier
whose positive activator (when present) occurs in the resolved positive
prompt and whose negative activator (when present) has no fragment
occurring in it. -/
theorem apply_modifiers_at_most_one (pd : PromptData)
    (mods : Option (List PromptModifer)) (choice : Nat) (roll : ℚ) :
    applyModifiers pd mods choice roll = pd ∨
    ∃ ms m, mods = some ms ∧ m ∈ ms ∧
      (m.if_activator.all fun a => strContains pd.positive a) = true ∧
      (m.if_not_activator.all fun na => filter_if_not pd na) = true ∧
      applyModifiers pd mods choice roll =
        { pd with positive := combine_prompts pd.positive m.prompt } := by
  cases mods with
  | none => exact Or.inl rfl
  | some ms =>
    rcases hch : chooseList (applicableModifiers pd ms) choice with _ | m
    · left; simp [applyModifiers, hch]
    · by_cases hr : roll ≤ m.chance.getD 1
      · right
        obtain ⟨h1, h2, h3⟩ := mem_applicableModifiers (chooseList_mem hch)
        exact ⟨ms, m, rfl, h1, h2, h3, by simp [applyModifiers, hch, hr]⟩
      · left; simp [applyModifiers, hch, hr]

/- ---------------------------------------------------------------- -/
/- Claim C7                                                          -/
/- ---------------------------------------------------------------- -/

theorem prefixWeight_zero (l : List WeightedPrompt) : prefixWeight l 0 = 0 := rfl

theorem prefixWeight_cons (w : WeightedPrompt) (ws : List WeightedPrompt) (i : Nat) :
    prefixWeight (w :: ws) (i + 1) = probability w + prefixWeight ws i := by
  simp [prefixWeight]

theorem prefixWeight_nonneg {l : List WeightedPrompt} (i : Nat)
    (hnn : ∀ w' ∈ l, 0 ≤ probability w') : 0 ≤ prefixWeight l i := by
  apply List.sum_nonneg
  intro x hx
  obtain ⟨w', hw', rfl⟩ := List.mem_map.mp hx
  exact hnn w' (List.take_subset i l hw')

theorem cumChooseAux_some_iff (r : ℚ) :
    ∀ (l : List WeightedPrompt) (acc : ℚ),
      (∀ w' ∈ l, 0 ≤ probability w') → acc ≤ r → ∀ w,
      (cumChooseAux r acc l = some w ↔
        ∃ i, ∃ h : i < l.length, w = l.get ⟨i, h⟩ ∧
          acc + prefixWeight l i ≤ r ∧ r < acc + prefixWeight l (i + 1)) := by
  intro l
  induction l with
  | nil => intro acc _ _ w; simp [cumChooseAux]
  | cons w0 ws ih =>
    intro acc hnn hacc w
    have hnn' : ∀ w' ∈ ws, 0 ≤ probability w' := fun w' hw' => hnn w' (List.mem_cons_of_mem _ hw')
    by_cases hlt : r < acc + probability w0
    · simp only [cumChooseAux, if_pos hlt]
      constructor
      · rintro h
        injection h with h
        refine ⟨0, by simp, by simp [h.symm], ?_, ?_⟩
        · simpa [prefixWeight_zero] using hacc
        · simpa [prefixWeight_cons, prefixWeight_zero] using hlt
      · rintro ⟨i, hi, hw, hle, _⟩
        cases i with
        | zero => simp [hw]
        | succ j =>
          exfalso
          rw [prefixWeight_cons] at hle
          have h0j : 0 ≤ prefixWeight ws j := prefixWeight_nonneg j hnn'
          have : acc + probability w0 ≤ r := by linarith
          exact absurd hlt (not_lt.mpr this)
    · have hacc' : acc + probability w0 ≤ r := not_lt.mp hlt
      simp only [cumChooseAux, if_neg hlt]
      rw [ih (acc + probability w0) hnn' hacc' w]
      constructor
      · rintro ⟨j, hj, hw, hle, hgt⟩
        refine ⟨j + 1, by simpa using Nat.succ_lt_succ hj, by simpa using hw, ?_, ?_⟩
        · rw [prefixWeight_cons]; linarith
        · rw [prefixWeight_cons]; linarith
      · rintro ⟨i, hi, hw, hle, hgt⟩
        cases i with
        | zero =>
          exfalso
          rw [prefixWeight_cons, prefixWeight_zero] at hgt
          exact absurd hgt (not_lt.mpr (by linarith))
        | succ j =>
          refine ⟨j, by simpa using Nat.lt_of_succ_lt_succ hi, by simpa using hw, ?_, ?_⟩
          · rw [prefixWeight_cons] at hle; linarith
          · rw [prefixWeight_cons] at hgt; linarith

/-- Claim C7: resolving a `Weighted` entry is a cumulative-distribution
draw over the declared weights in declared order from one uniform draw:
an unspecified chance defaults to 1, consecutive cumulative sums differ
exactly by the entry's declared weight, and the draw selects the entry at
position `i` precisely when the draw value falls in the half-open
interval between the cumulative sums around `i`. -/
theorem weighted_choice_cumulative (l : List WeightedPrompt) (r : ℚ)
    (w : WeightedPrompt) (hnn : ∀ w' ∈ l, 0 ≤ probability w') (h0 : 0 ≤ r) :
    (∀ s : String, probability ⟨s, none⟩ = 1) ∧
    (∀ i : Nat, prefixWeight l (i + 1) =
      prefixWeight l i + ((l.get? i).map probability).getD 0) ∧
    (cumChoose l r = some w ↔
      ∃ i, ∃ h : i < l.length, w = l.get ⟨i, h⟩ ∧
        prefixWeight l i ≤ r ∧ r < prefixWeight l (i + 1)) := by
  refine ⟨fun _ => rfl, fun i => ?_, ?_⟩
  · unfold prefixWeight
    rw [List.take_succ, List.map_append, List.sum_append, List.get?_eq_getElem?]
    cases h : l[i]? <;> simp [h]
  · have := cumChooseAux_some_iff r l 0 hnn h0 w
    simpa [cumChoose] using this

/-- A weighted entry relying on the default chance. -/
def wDef : WeightedPrompt := ⟨"only", none⟩

/-- Witness for C7: the draw 0 lands in the cumulative interval [0, 1) of
the single default-chance entry. -/
theorem weighted_choice_cumulative_witness :
    cumChoose [wDef] 0 = some wDef :=
  ((weighted_choice_cumulative [wDef] 0 wDef (by simp [probability, wDef])
      (le_refl 0)).2.2).mpr
    ⟨0, by simp, rfl, by simp [prefixWeight_zero],
      by simp [prefixWeight_cons, prefixWeight_zero, probability, wDef]⟩

/- ---------------------------------------------------------------- -/
/- Claim C9 (corrected: file names are zero-padded to two digits)    -/
/- ---------------------------------------------------------------- -/

/-- Counterexample to C9 as stated: for item index 3 the primary image is
written to `03.png`, not to the claim's `<index>.png` = `3.png`. -/
theorem image_filename_zero_padding_counterexample :
    (generate_image ⟨1, [5]⟩ pdBase 3).2 =
      [Effect.apiCall 3 pdBase, Effect.writeImage "03.png"] ∧
    specPrimaryName 3 = "3.png" ∧
    imageFilename 3 0 = "03.png" ∧
    imageFilename 3 0 ≠ specPrimaryName 3 :=
  ⟨rfl, rfl, rfl, by decide⟩

/-- Claim C9 as amended: the generation primitive performs one
collaborator call and then writes the buffer at position `i` of the
response to `<idx zero-padded to two digits>.png` when `i = 0` (the
primary image) and to `<idx zero-padded>-<i>.png` otherwise, `i` being
the 0-based position within the response, i.e. the 1-based position of
that secondary image among the secondary images. -/
theorem generate_image_output_filenames (resp : ApiResponse)
    (prompt : PromptData) (idx : Nat) :
    (generate_image resp prompt idx).2 =
      Effect.apiCall idx prompt ::
        (List.range resp.images).map fun i =>
          Effect.writeImage
            (if i = 0 then pad2 idx ++ ".png"
             else pad2 idx ++ "-" ++ toString i ++ ".png") := by
  simp [generate_image, imageFilename]

/- ---------------------------------------------------------------- -/
/- Trace observation lemmas                                          -/
/- ---------------------------------------------------------------- -/

theorem getLast?_cons_concat {α : Type} (a : α) (l : List α) (b : α) :
    (a :: (l ++ [b])).getLast? = some b := by
  rw [← List.cons_append]
  exact List.getLast?_concat _

theorem apiCalls_append (a b : List Effect) :
    apiCalls (a ++ b) = apiCalls a ++ apiCalls b := by
  simp [apiCalls]

theorem logWrites_append (a b : List Effect) :
    logWrites (a ++ b) = logWrites a ++ logWrites b := by
  simp [logWrites]

theorem apiCalls_generate_image (resp : ApiResponse) (p : PromptData) (idx : Nat) :
    apiCalls (generate_image resp p idx).2 = [(idx, p)] := by
  simp [generate_image, apiCalls, List.filterMap_cons, List.filterMap_map, getApiCall]

theorem logWrites_generate_image (resp : ApiResponse) (p : PromptData) (idx : Nat) :
    logWrites (generate_image resp p idx).2 = [] := by
  simp [generate_image, logWrites, List.filterMap_cons, List.filterMap_map, getWriteLog]

/- ---------------------------------------------------------------- -/
/- Behaviour of the resume loop                                      -/
/- ---------------------------------------------------------------- -/

theorem resumeItems_get? (existing : List Nat) (api : Nat → ApiResponse) :
    ∀ (ps : List PromptData) (s i : Nat),
      (resumeItems existing api s ps).2.1.get? i =
        if existing.contains (s + i) then ps.get? i
        else (ps.get? i).map fun p =>
          (generate_image (api (s + i)) { p with seed := none } (s + i)).1 := by
  intro ps
  induction ps with
  | nil => intro s i; simp [resumeItems]
  | cons p rest ih =>
    intro s i
    cases i with
    | zero =>
      by_cases hc : s ∈ existing
      · simp [resumeItems, hc]
      · simp [resumeItems, hc]
    | succ j =>
      have e : s + (j + 1) = s + 1 + j := by omega
      by_cases hc : s ∈ existing
      · simpa [resumeItems, hc, e] using ih (s + 1) j
      · simpa [resumeItems, hc, e] using ih (s + 1) j

theorem resumeItems_count (existing : List Nat) (api : Nat → ApiResponse) :
    ∀ (ps : List PromptData) (s : Nat),
      (resumeItems existing api s ps).1 =
        (List.enumFrom s ps).countP fun ip => !existing.contains ip.1 := by
  intro ps
  induction ps with
  | nil => intro s; simp [resumeItems]
  | cons p rest ih =>
    intro s
    by_cases hc : s ∈ existing
    · simp [resumeItems, hc, List.enumFrom, List.countP_cons, ih (s + 1)]
    · simp [resumeItems, hc, List.enumFrom, List.countP_cons, ih (s + 1)]

theorem resumeItems_apiCalls (existing : List Nat) (api : Nat → ApiResponse) :
    ∀ (ps : List PromptData) (s : Nat),
      apiCalls (resumeItems existing api s ps).2.2 =
        ((List.enumFrom s ps).filter fun ip => !existing.contains ip.1).map
          fun ip => (ip.1, { ip.2 with seed := none }) := by
  intro ps
  induction ps with
  | nil => intro s; simp [resumeItems, apiCalls]
  | cons p rest ih =>
    intro s
    by_cases hc : s ∈ existing
    · simp [resumeItems, hc, List.enumFrom, ih (s + 1)]
    · simp [resumeItems, hc, List.enumFrom, apiCalls_append,
        apiCalls_generate_image, ih (s + 1)]

theorem resumeItems_logWrites (existing : List Nat) (api : Nat → ApiResponse) :
    ∀ (ps : List PromptData) (s : Nat),
      logWrites (resumeItems existing api s ps).2.2 = [] := by
  intro ps
  induction ps with
  | nil => intro s; simp [resumeItems, logWrites]
  | cons p rest ih =>
    intro s
    by_cases hc : s ∈ existing
    · simp [resumeItems, hc, ih (s + 1)]
    · simp [resumeItems, hc, logWrites_append, logWrites_generate_image, ih (s + 1)]

/- ---------------------------------------------------------------- -/
/- Claim C2 (corrected: only whole-stem `png` files mark an index)   -/
/- ---------------------------------------------------------------- -/

/-- An eleven-entry log whose records carry seed 1. -/
def log11 : BatchLog :=
  ⟨"t", List.replicate 11 { pdBase with seed := some 1 }, "out/t.json"⟩

/-- A collaborator oracle returning one image with seed 99. -/
def api99 : Nat → ApiResponse := fun _ => ⟨1, [99]⟩

/-- Counterexample to C2 as stated: with only the secondary image file
`10-1.png` on disk — which matches the claim's `<index>[-<subindex>].<ext>`
convention for index 10 — `resume` on an eleven-entry log still
regenerates all eleven entries, index 10 included (its seed changes from
1 to the response's 99), instead of leaving index 10 untouched. -/
theorem resume_convention_counterexample :
    specConventionMatches 10 "10-1.png" = true ∧
    (resume log11 ["10-1.png"] api99).1 = 11 ∧
    ((resume log11 ["10-1.png"] api99).2.1.images.get? 10).map (fun p => p.seed) =
      some (some 99) ∧
    ((log11.images.get? 10).map fun p => p.seed) = some (some 1) ∧
    some (some (99 : Int)) ≠ some (some (1 : Int)) := by
  refine ⟨rfl, ?_, ?_, rfl, by decide⟩ <;> rfl

/-- Claim C2 as amended: `resume` regenerates exactly those log entries
whose index is absent from the scanned directory listing, where a file
marks an index as present only when its extension is exactly `png` and
its whole stem parses as that decimal index (so the run's own zero-padded
primary files qualify, while secondary `<index>-<n>` files and other
extensions do not); regeneration proceeds in ascending index order with
the seed cleared before the call, present entries are untouched, and the
updated log is persisted exactly once, as the final effect. -/
theorem resume_regenerates_missing_primary_indices (log : BatchLog)
    (dirEntries : List String) (api : Nat → ApiResponse) :
    (resume log dirEntries api).2.1.template = log.template ∧
    (resume log dirEntries api).2.1.file_path = log.file_path ∧
    (∀ i : Nat, (resume log dirEntries api).2.1.images.get? i =
      if (existingImageIndices dirEntries).contains i then log.images.get? i
      else (log.images.get? i).map fun p =>
        (generate_image (api i) { p with seed := none } i).1) ∧
    (resume log dirEntries api).1 =
      (log.images.enum.countP fun ip =>
        !(existingImageIndices dirEntries).contains ip.1) ∧
    apiCalls (resume log dirEntries api).2.2 =
      ((log.images.enum.filter fun ip =>
          !(existingImageIndices dirEntries).contains ip.1).map
        fun ip => (ip.1, { ip.2 with seed := none })) ∧
    logWrites (resume log dirEntries api).2.2 = [(resume log dirEntries api).2.1] ∧
    (resume log dirEntries api).2.2.getLast? =
      some (Effect.writeLog log.file_path (resume log dirEntries api).2.1) := by
  refine ⟨rfl, rfl, ?_, ?_, ?_, ?_, ?_⟩
  · intro i
    have h := resumeItems_get? (existingImageIndices dirEntries) api log.images 0 i
    simpa [resume] using h
  · have h := resumeItems_count (existingImageIndices dirEntries) api log.images 0
    simpa [resume, List.enum] using h
  · have h := resumeItems_apiCalls (existingImageIndices dirEntries) api log.images 0
    simpa [resume, apiCalls, List.filterMap_cons, List.filterMap_append,
      getApiCall, List.enum] using h
  · have h := resumeItems_logWrites (existingImageIndices dirEntries) api log.images 0
    simpa [resume, logWrites, List.filterMap_cons, List.filterMap_append,
      getWriteLog] using h
  · simp only [resume]
    exact getLast?_cons_concat _ _ _

/- ---------------------------------------------------------------- -/
/- Behaviour of the run generation loop                              -/
/- ---------------------------------------------------------------- -/

theorem generate_image_seed (resp : ApiResponse) (p : PromptData) (idx : Nat) :
    (generate_image resp p idx).1.seed = seedAfter resp p.seed := by
  unfold generate_image seedAfter
  by_cases h : 0 < resp.images
  · simp only [h, if_pos]
    cases resp.all_seeds.head? <;> simp
  · simp [h]

theorem runGenLoop_seeds (api : Nat → ApiResponse) :
    ∀ (ps : List PromptData) (s : Nat),
      (runGenLoop api s ps).1.map (fun p => p.seed) =
        (List.enumFrom s ps).map fun ip => seedAfter (api ip.1) ip.2.seed := by
  intro ps
  induction ps with
  | nil => intro s; rfl
  | cons p rest ih =>
    intro s
    simp [runGenLoop, List.enumFrom, generate_image_seed, ih (s + 1)]

theorem runGenLoop_logWrites (api : Nat → ApiResponse) :
    ∀ (ps : List PromptData) (s : Nat),
      logWrites (runGenLoop api s ps).2 = [] := by
  intro ps
  induction ps with
  | nil => intro s; rfl
  | cons p rest ih =>
    intro s
    simp [runGenLoop, logWrites_append, logWrites_generate_image, ih (s + 1)]

theorem mapM_except_length {α β ε : Type} (f : α → Except ε β) :
    ∀ (l : List α) (r : List β), l.mapM f = Except.ok r → r.length = l.length := by
  intro l
  induction l with
  | nil =>
    intro r h
    rw [List.mapM_nil] at h
    cases h
    rfl
  | cons a l ih =>
    intro r h
    rw [List.mapM_cons] at h
    cases hfa : f a with
    | error e => rw [hfa] at h; cases h
    | ok b =>
      rw [hfa] at h
      cases hml : l.mapM f with
      | error e =>
        rw [hml] at h
        cases h
      | ok bs =>
        rw [hml] at h
        cases h
        simpa using ih bs hml

/-- The outcome of `run` when validation passes, the plan builds, and the
collaborator is invoked (`dry_run = false`): one directory creation, one
log write holding the planned records, one client creation, then the
generation trace; the returned log carries the loop's updated records. -/
theorem run_unfold_generating (t : BatchTemplate) (sequential : Bool)
    (output_dir ts : String) (rnd : RunRand) (api : Nat → ApiResponse)
    (imgs : List PromptData)
    (hv : t.count.getD t.prompts.length ≤ t.prompts.length)
    (hb : buildImages t
        (samplePool t.prompts (t.count.getD t.prompts.length) sequential rnd) rnd =
      Except.ok imgs) :
    t.run false output_dir sequential rnd ts api =
      (RunOutcome.ok ⟨t.name, (runGenLoop api 0 imgs).1, logPath output_dir t.name ts⟩,
       [Effect.createDir output_dir,
        Effect.writeLog (logPath output_dir t.name ts)
          ⟨t.name, imgs, logPath output_dir t.name ts⟩,
        Effect.apiCreate] ++ (runGenLoop api 0 imgs).2) := by
  unfold BatchTemplate.run
  rw [if_neg (Nat.not_lt.mpr hv)]
  simp [hb, BatchLog.new]

/-- The outcome of `run` when validation passes, the plan builds, and
`dry_run = true`: the trace stops after the single log write. -/
theorem run_unfold_dry (t : BatchTemplate) (sequential : Bool)
    (output_dir ts : String) (rnd : RunRand) (api : Nat → ApiResponse)
    (imgs : List PromptData)
    (hv : t.count.getD t.prompts.length ≤ t.prompts.length)
    (hb : buildImages t
        (samplePool t.prompts (t.count.getD t.prompts.length) sequential rnd) rnd =
      Except.ok imgs) :
    t.run true output_dir sequential rnd ts api =
      (RunOutcome.ok ⟨t.name, imgs, logPath output_dir t.name ts⟩,
       [Effect.createDir output_dir,
        Effect.writeLog (logPath output_dir t.name ts)
          ⟨t.name, imgs, logPath output_dir t.name ts⟩]) := by
  unfold BatchTemplate.run
  rw [if_neg (Nat.not_lt.mpr hv)]
  simp [hb, BatchLog.new]

/- ---------------------------------------------------------------- -/
/- Claim C1 (corrected: the log is persisted once, before generation)-/
/- ---------------------------------------------------------------- -/

/-- The planned record `tOne`'s run builds: combined positive prompt and
the planning seed drawn from `rnd7`. -/
def pdPlanned : PromptData := { pdBase with positive := "base, solo", seed := some 7 }

/-- Counterexample to C1 as stated: in a non-dry run of `tOne` whose only
generation call succeeds with authoritative seed 42, the returned
in-memory log carries seed 42, but the log on disk after the run — the
last (and only) persisted log of the trace — still carries the planning
seed 7, so the on-disk log does not record the authoritative seed. -/
theorem run_does_not_repersist_authoritative_seed :
    outcomeSeeds (tOne.run false "out" true rnd7 "ts" api42).1 = [some 42] ∧
    (lastWrittenLog (tOne.run false "out" true rnd7 "ts" api42).2).map
      (fun l => l.images.map fun p => p.seed) = some [some 7] ∧
    some [some (42 : Int)] ≠ some [some (7 : Int)] :=
  ⟨rfl, rfl, by decide⟩

/-- Claim C1 as amended: during a non-dry run, after each successful
generation call the item's seed is overwritten with the authoritative
seed of that item's response in the in-memory log only; the log is
persisted exactly once, before any generation call, holding the planning
records, and is not re-persisted afterwards. -/
theorem run_persists_log_once_before_generation (t : BatchTemplate)
    (sequential : Bool) (output_dir ts : String) (rnd : RunRand)
    (api : Nat → ApiResponse) (imgs : List PromptData)
    (hv : t.count.getD t.prompts.length ≤ t.prompts.length)
    (hb : buildImages t
        (samplePool t.prompts (t.count.getD t.prompts.length) sequential rnd) rnd =
      Except.ok imgs) :
    t.run false output_dir sequential rnd ts api =
      (RunOutcome.ok ⟨t.name, (runGenLoop api 0 imgs).1, logPath output_dir t.name ts⟩,
       [Effect.createDir output_dir,
        Effect.writeLog (logPath output_dir t.name ts)
          ⟨t.name, imgs, logPath output_dir t.name ts⟩,
        Effect.apiCreate] ++ (runGenLoop api 0 imgs).2) ∧
    logWrites (t.run false output_dir sequential rnd ts api).2 =
      [⟨t.name, imgs, logPath output_dir t.name ts⟩] ∧
    (runGenLoop api 0 imgs).1.map (fun p => p.seed) =
      imgs.enum.map fun ip => seedAfter (api ip.1) ip.2.seed := by
  have hrun := run_unfold_generating t sequential output_dir ts rnd api imgs hv hb
  refine ⟨hrun, ?_, ?_⟩
  · rw [hrun]
    have h0 := runGenLoop_logWrites api imgs 0
    simp [logWrites, List.filterMap_cons, List.filterMap_append, getWriteLog] at h0 ⊢
    exact h0
  · simpa [List.enum] using runGenLoop_seeds api imgs 0

/-- Witness for C1 as amended: the concrete one-item run persists exactly
one log, the planned one with seed 7. -/
theorem run_persists_log_once_before_generation_witness :
    logWrites (tOne.run false "out" true rnd7 "ts" api42).2 =
      [⟨"t", [pdPlanned], logPath "out" "t" "ts"⟩] :=
  (run_persists_log_once_before_generation tOne true "out" "ts" rnd7 api42
    [pdPlanned] (by decide) rfl).2.1

/- ---------------------------------------------------------------- -/
/- Claim C10                                                         -/
/- ---------------------------------------------------------------- -/

/-- Claim C10: with `dry_run = true`, `do_run` produces only the
directory creation and the single planned-log write — no API client, no
generation call, no image file — yet reports `images_created` equal to
the sampled count, the number of planned log entries. -/
theorem dry_run_reports_planned_count (t : BatchTemplate) (sequential : Bool)
    (output_dir ts : String) (rnd : RunRand) (api : Nat → ApiResponse)
    (imgs : List PromptData)
    (hv : t.count.getD t.prompts.length ≤ t.prompts.length)
    (hb : buildImages t
        (samplePool t.prompts (t.count.getD t.prompts.length) sequential rnd) rnd =
      Except.ok imgs) :
    do_run true sequential t output_dir rnd ts api =
      (DoRunOutcome.ok
        ⟨(samplePool t.prompts (t.count.getD t.prompts.length) sequential rnd).length,
         logPath output_dir t.name ts⟩,
       [Effect.createDir output_dir,
        Effect.writeLog (logPath output_dir t.name ts)
          ⟨t.name, imgs, logPath output_dir t.name ts⟩]) := by
  have hrun := run_unfold_dry t sequential output_dir ts rnd api imgs hv hb
  have hlen : imgs.length =
      (samplePool t.prompts (t.count.getD t.prompts.length) sequential rnd).length := by
    have := mapM_except_length _ _ _ hb
    simpa [List.enum_length] using this
  unfold do_run
  rw [hrun]
  simp [hlen]

/-- Witness for C10: the concrete one-prompt dry run creates no client
and no image yet reports one image created. -/
theorem dry_run_reports_planned_count_witness :
    do_run true true tOne "out" rnd7 "ts" api42 =
      (DoRunOutcome.ok
        ⟨(samplePool tOne.prompts (tOne.count.getD tOne.prompts.length) true rnd7).length,
         logPath "out" "t" "ts"⟩,
       [Effect.createDir "out",
        Effect.writeLog (logPath "out" "t" "ts")
          ⟨"t", [pdPlanned], logPath "out" "t" "ts"⟩]) :=
  dry_run_reports_planned_count tOne true "out" "ts" rnd7 api42 [pdPlanned]
    (by decide) rfl

end SDBatch
